import Mathlib

/-!
Verification of the deterministic display transform in `src/serialization.rs`
(`impl_deterministic_display_from_serde`): a value is serialized with
serde_json to its compact textual form, then surrounding quotes are
stripped, then surrounding braces are stripped, then the characters
backslash, double-quote, colon and space are substituted.
-/

namespace DetDisplay

/-- Left-brace character, written by code point to keep sources clean. -/
def lbrace : Char := Char.ofNat 123

/-- Right-brace character. -/
def rbrace : Char := Char.ofNat 125

/-- The canonical intermediate form: the subset of serde_json values the
displayed types produce (numbers, strings, arrays, objects). -/
inductive Json where
  | num (n : Int)
  | str (s : List Char)
  | arr (l : List Json)
  | obj (l : List (List Char × Json))

/-- Lowercase hex digit, as serde_json writes in `\u00XX` escapes. -/
def hexDigit (n : Nat) : Char :=
  if n < 10 then Char.ofNat (48 + n) else Char.ofNat (87 + n)

/-- serde_json string escaping for one character: `\"` and `\\` escapes,
short escapes for the common control characters, `\u00XX` for the rest. -/
def escapeChar (c : Char) : List Char :=
  if c = '"' then ['\\', '"']
  else if c = '\\' then ['\\', '\\']
  else if c = '\n' then ['\\', 'n']
  else if c = '\t' then ['\\', 't']
  else if c = '\r' then ['\\', 'r']
  else if c = '\x08' then ['\\', 'b']
  else if c = '\x0c' then ['\\', 'f']
  else if c.toNat < 32 then
    ['\\', 'u', '0', '0', hexDigit (c.toNat / 16), hexDigit (c.toNat % 16)]
  else [c]

/-- serde_json escaping of a whole string body. -/
def escapeStr : List Char → List Char
  | [] => []
  | c :: cs => escapeChar c ++ escapeStr cs

mutual

/-- Compact textual rendering of a CIF, as `serde_json::to_string`
produces it: strings fully quoted and escaped, `[v,v]` arrays,
object entries rendered `"k":v` and joined by commas in braces. -/
def Json.compact : Json → List Char
  | .num n => (toString n).toList
  | .str s => '"' :: (escapeStr s ++ ['"'])
  | .arr l => '[' :: (compactArr l ++ [']'])
  | .obj l => lbrace :: (compactObj l ++ [rbrace])

/-- Comma-joined compact renderings of array elements. -/
def compactArr : List Json → List Char
  | [] => []
  | [j] => Json.compact j
  | j :: rest => Json.compact j ++ ',' :: compactArr rest

/-- Comma-joined compact renderings of object entries. -/
def compactObj : List (List Char × Json) → List Char
  | [] => []
  | [(k, v)] => '"' :: (escapeStr k ++ ['"', ':'] ++ Json.compact v)
  | (k, v) :: rest =>
      '"' :: (escapeStr k ++ ['"', ':'] ++ Json.compact v) ++ ',' :: compactObj rest

end

/-- Step 2 of the transform: if the string starts and ends with `"`,
remove the first and last character. The Rust source slices
`s[1..s.len() - 1]`, which panics when the condition holds on a
one-character string (the lone `"`); `none` models that panic. -/
def stripQuotes (s : List Char) : Option (List Char) :=
  if s.head? = some '"' ∧ s.getLast? = some '"' then
    if 2 ≤ s.length then some (s.drop 1).dropLast else none
  else some s

/-- Step 3 of the transform: if the string starts with `{` and ends
with `}`, remove the first and last character; same panic model. -/
def stripBraces (s : List Char) : Option (List Char) :=
  if s.head? = some lbrace ∧ s.getLast? = some rbrace then
    if 2 ≤ s.length then some (s.drop 1).dropLast else none
  else some s

/-- `String::replace(c, r)`: every occurrence of the character `c` is
replaced by the string `r`. -/
def replaceChar (c : Char) (r : List Char) : List Char → List Char
  | [] => []
  | x :: xs => (if x = c then r else [x]) ++ replaceChar c r xs

/-- Step 4: the four substitutions in source order — backslash to tilde,
double-quote deleted, colon to underscore, space to hyphen. -/
def substitute (s : List Char) : List Char :=
  replaceChar ' ' ['-']
    (replaceChar ':' ['_']
      (replaceChar '"' []
        (replaceChar '\\' ['~'] s)))

/-- Steps 2–4 composed on the rendered string. -/
def cleanup (s : List Char) : Option (List Char) :=
  (stripQuotes s).bind fun a => (stripBraces a).map substitute

/-- The whole display pipeline on a CIF value. -/
def display (j : Json) : Option (List Char) :=
  cleanup j.compact

/-- The `fmt` body including the error branch: the serializer result
(`serde_json::to_string`) is mapped through the cleanup steps, and a
serialization error is mapped to `fmt::Error` (modelled as `Unit`).
`none` models a panic inside the string steps. -/
def fmtFromSer (r : Except String (List Char)) : Option (Except Unit (List Char)) :=
  match r with
  | .ok s => (cleanup s).map Except.ok
  | .error _ => some (.error ())

/-- The newtype struct `ProductCode(String)` from the tests: serde
serializes a newtype struct as its inner value. -/
structure ProductCode where
  code : List Char

/-- serde serialization of `ProductCode`. -/
def ProductCode.serialize (p : ProductCode) : Json := Json.str p.code

/-- `Display` for `ProductCode` through the macro. -/
def ProductCode.display (p : ProductCode) : Option (List Char) :=
  DetDisplay.display p.serialize

/-- The `ComplexEnum` from the tests. -/
inductive ComplexEnum where
  | variantA
  | variantB (id : Int) (name : List Char)
  | variantC (items : List (List Char))

/-- serde serialization of `ComplexEnum` (externally tagged): a unit
variant is its name as a string, a payload variant is a one-entry
object from the variant name to the payload. -/
def ComplexEnum.serialize : ComplexEnum → Json
  | .variantA => Json.str "VariantA".toList
  | .variantB i n =>
      Json.obj [("VariantB".toList,
        Json.obj [("id".toList, Json.num i), ("name".toList, Json.str n)])]
  | .variantC l => Json.obj [("VariantC".toList, Json.arr (l.map Json.str))]

/-- `Display` for `ComplexEnum` through the macro. -/
def ComplexEnum.display (e : ComplexEnum) : Option (List Char) :=
  DetDisplay.display e.serialize

/-! ## Helper lemmas -/

/-- Stripping quotes from an explicitly quote-wrapped string leaves
exactly the wrapped content. -/
theorem stripQuotes_quoted (t : List Char) :
    stripQuotes ('"' :: (t ++ ['"'])) = some t := by
  have hform : '"' :: (t ++ ['"']) = ('"' :: t) ++ ['"'] := by simp
  have h1 : ('"' :: (t ++ ['"'])).head? = some '"' := rfl
  have h2 : ('"' :: (t ++ ['"'])).getLast? = some '"' := by
    rw [hform]; exact List.getLast?_concat _
  have h3 : 2 ≤ ('"' :: (t ++ ['"'])).length := by simp
  simp only [stripQuotes, h1, h2, and_self, if_true, h3, List.drop_succ_cons,
    List.drop_zero, List.dropLast_concat, if_pos]

/-- Stripping braces from an explicitly brace-wrapped string leaves
exactly the wrapped content. -/
theorem stripBraces_braced (t : List Char) :
    stripBraces (lbrace :: (t ++ [rbrace])) = some t := by
  have hform : lbrace :: (t ++ [rbrace]) = (lbrace :: t) ++ [rbrace] := by simp
  have h1 : (lbrace :: (t ++ [rbrace])).head? = some lbrace := rfl
  have h2 : (lbrace :: (t ++ [rbrace])).getLast? = some rbrace := by
    rw [hform]; exact List.getLast?_concat _
  have h3 : 2 ≤ (lbrace :: (t ++ [rbrace])).length := by simp
  simp only [stripBraces, h1, h2, and_self, if_true, h3, List.drop_succ_cons,
    List.drop_zero, List.dropLast_concat, if_pos]

/-- A string whose first character is not a quote passes the
quote-strip unchanged. -/
theorem stripQuotes_of_head_ne {s : List Char} {c : Char}
    (h : s.head? = some c) (hne : c ≠ '"') : stripQuotes s = some s := by
  unfold stripQuotes
  rw [h]
  simp [hne]

/-- A string whose first character is not a left brace passes the
brace-strip unchanged. -/
theorem stripBraces_of_head_ne {s : List Char} {c : Char}
    (h : s.head? = some c) (hne : c ≠ lbrace) : stripBraces s = some s := by
  unfold stripBraces
  rw [h]
  simp [hne]

/-- The quote-strip succeeds on every string other than the lone
double-quote (the one input on which the Rust slice panics). -/
theorem stripQuotes_isSome {s : List Char} (h : s ≠ ['"']) :
    (stripQuotes s).isSome := by
  unfold stripQuotes
  split
  · next hc =>
    split
    · simp
    · next hlen =>
      exfalso
      rcases s with _ | ⟨c, _ | ⟨d, t⟩⟩
      · simp at hc
      · obtain ⟨h1, _⟩ := hc
        simp only [List.head?_cons, Option.some.injEq] at h1
        exact h (by rw [h1])
      · exact hlen (by simp)
  · simp

/-- The brace-strip succeeds on every string: both conditions cannot
hold on a one-character string since `{` differs from `}`. -/
theorem stripBraces_isSome (s : List Char) : (stripBraces s).isSome := by
  unfold stripBraces
  split
  · next hc =>
    split
    · simp
    · next hlen =>
      exfalso
      rcases s with _ | ⟨c, _ | ⟨d, t⟩⟩
      · simp at hc
      · obtain ⟨h1, h2⟩ := hc
        simp only [List.head?_cons, Option.some.injEq] at h1
        simp only [List.getLast?_singleton, Option.some.injEq] at h2
        rw [h1] at h2
        exact absurd h2 (by decide)
      · exact hlen (by simp)
  · simp

/-- The brace-strip on a string with head `{` and last `}` removes
exactly the first and last character. -/
theorem stripBraces_of_wrapped {t : List Char}
    (h1 : t.head? = some lbrace) (h2 : t.getLast? = some rbrace) :
    stripBraces t = some ((t.drop 1).dropLast) := by
  have hlen : 2 ≤ t.length := by
    rcases t with _ | ⟨c, _ | ⟨d, r⟩⟩
    · simp at h1
    · simp only [List.head?_cons, Option.some.injEq] at h1
      simp only [List.getLast?_singleton, Option.some.injEq] at h2
      rw [h1] at h2
      exact absurd h2 (by decide)
    · simp
  simp only [stripBraces, h1, h2, and_self, if_true, hlen, if_pos]

/-- Membership in a character replacement: an output character either
comes from the replacement text or is an unreplaced input character. -/
theorem mem_replaceChar {x c : Char} {r s : List Char}
    (h : x ∈ replaceChar c r s) : x ∈ r ∨ (x ∈ s ∧ x ≠ c) := by
  induction s with
  | nil => simp [replaceChar] at h
  | cons y ys ih =>
    simp only [replaceChar] at h
    rcases List.mem_append.mp h with h1 | h2
    · by_cases hy : y = c
      · rw [if_pos hy] at h1
        exact .inl h1
      · rw [if_neg hy] at h1
        simp only [List.mem_singleton] at h1
        subst h1
        exact .inr ⟨List.mem_cons_self _ _, hy⟩
    · rcases ih h2 with h3 | ⟨h4, h5⟩
      · exact .inl h3
      · exact .inr ⟨List.mem_cons_of_mem _ h4, h5⟩

/-- No character of a substituted string is a backslash, double-quote,
colon or space. -/
theorem substitute_no_special {s : List Char} {c : Char}
    (h : c ∈ substitute s) : c ≠ '\\' ∧ c ≠ '"' ∧ c ≠ ':' ∧ c ≠ ' ' := by
  unfold substitute at h
  rcases mem_replaceChar h with h1 | ⟨h2, hsp⟩
  · simp only [List.mem_singleton] at h1
    subst h1
    decide
  · rcases mem_replaceChar h2 with h3 | ⟨h4, hco⟩
    · simp only [List.mem_singleton] at h3
      subst h3
      decide
    · rcases mem_replaceChar h4 with h5 | ⟨h6, hq⟩
      · simp at h5
      · rcases mem_replaceChar h6 with h7 | ⟨_, hbs⟩
        · simp only [List.mem_singleton] at h7
          subst h7
          decide
        · exact ⟨hbs, hq, hco, hsp⟩

/-! ## Claims -/

/-- C1 (counterexample): the cleanup steps are not total over every
string — on the one-character string consisting of a lone double-quote,
both quote-strip conditions hold and the Rust slice `s[1..s.len() - 1]`
is `s[1..0]`, which panics. -/
theorem C1_cleanup_panics_on_lone_quote : cleanup ['"'] = none := rfl

/-- C1 (amended): the cleanup steps (quote-strip, brace-strip,
substitutions) succeed on every string except the one-character string
consisting of a lone double-quote; in particular a lone opening brace
passes through unchanged. -/
theorem C1_cleanup_total_except_lone_quote :
    (∀ s : List Char, s ≠ ['"'] → (cleanup s).isSome) ∧
    cleanup [lbrace] = some [lbrace] := by
  constructor
  · intro s hs
    unfold cleanup
    obtain ⟨a, ha⟩ := Option.isSome_iff_exists.mp (stripQuotes_isSome hs)
    obtain ⟨b, hb⟩ := Option.isSome_iff_exists.mp (stripBraces_isSome a)
    rw [ha]
    simp [Option.bind, hb]
  · decide

/-- C1 witness: the amended totality applied at the concrete input
`abc`. -/
theorem C1_witness : (cleanup "abc".toList).isSome :=
  C1_cleanup_total_except_lone_quote.1 "abc".toList (by decide)

/-- C2: the quote-strip removes exactly the first and last character of
every quote-wrapped rendering, and concretely
`render(Wrap("example")) = "example"` and `render(Wrap("")) = ""`. -/
theorem C2_quote_strip_exact :
    (∀ t : List Char, stripQuotes ('"' :: (t ++ ['"'])) = some t) ∧
    ProductCode.display ⟨"example".toList⟩ = some "example".toList ∧
    ProductCode.display ⟨"".toList⟩ = some "".toList := by
  refine ⟨stripQuotes_quoted, by decide, by decide⟩

/-- C2 witness: the quote-strip applied to the concrete quoted string
`"xy"` yields its content. -/
theorem C2_witness : stripQuotes ('"' :: ("xy".toList ++ ['"'])) = some "xy".toList :=
  C2_quote_strip_exact.1 "xy".toList

/-- C3: the substitutions run in the fixed source order — on the
serializer escape of an embedded quote, the backslash first becomes a
tilde and the quote is then deleted — so
`render(Wrap("ex\"ample")) = "ex~ample"` exactly. -/
theorem C3_embedded_quote_collapses_to_tilde :
    ProductCode.display ⟨"ex\"ample".toList⟩ = some "ex~ample".toList ∧
    replaceChar '\\' ['~'] "ex\\\"ample".toList = "ex~\"ample".toList ∧
    replaceChar '"' [] "ex~\"ample".toList = "ex~ample".toList := by
  refine ⟨by decide, by decide, by decide⟩

/-- C4: the brace-strip removes exactly one outer layer of braces, and
the tagged-union variant with named fields renders as
`VariantB_{id_42,name_test}` with its inner braces preserved. -/
theorem C4_variantB_rendering :
    (∀ t : List Char, stripBraces (lbrace :: (t ++ [rbrace])) = some t) ∧
    ComplexEnum.display (.variantB 42 "test".toList) =
      some "VariantB_\x7bid_42,name_test\x7d".toList := by
  refine ⟨stripBraces_braced, by decide⟩

/-- C4 witness: the one-layer brace-strip applied to the concrete
brace-wrapped string whose content is again brace-wrapped. -/
theorem C4_witness :
    stripBraces (lbrace :: ((lbrace :: ("a".toList ++ [rbrace])) ++ [rbrace])) =
      some (lbrace :: ("a".toList ++ [rbrace])) :=
  C4_variantB_rendering.1 (lbrace :: ("a".toList ++ [rbrace]))

/-- C5: a rendering that starts with `[` is untouched by both strips,
and the sequence-payload variant renders as `VariantC_[one,two]` with
brackets preserved and quotes deleted. -/
theorem C5_brackets_never_stripped :
    (∀ s : List Char, s.head? = some '[' →
      stripQuotes s = some s ∧ stripBraces s = some s ∧
      cleanup s = some (substitute s)) ∧
    ComplexEnum.display (.variantC ["one".toList, "two".toList]) =
      some "VariantC_[one,two]".toList := by
  constructor
  · intro s h
    have hq : stripQuotes s = some s := stripQuotes_of_head_ne h (by decide)
    have hb : stripBraces s = some s := stripBraces_of_head_ne h (by decide)
    refine ⟨hq, hb, ?_⟩
    unfold cleanup
    rw [hq]
    simp [Option.bind, hb]
  · decide

/-- C5 witness: both strips leave the concrete sequence rendering
`[1]` unchanged. -/
theorem C5_witness :
    stripQuotes "[1]".toList = some "[1]".toList ∧
    stripBraces "[1]".toList = some "[1]".toList ∧
    cleanup "[1]".toList = some (substitute "[1]".toList) :=
  C5_brackets_never_stripped.1 "[1]".toList (by decide)

/-- C6: when the serializer fails, the fmt body returns the typed
formatting error — never an ok string such as a default or empty one —
and the string-processing steps are not run. -/
theorem C6_error_propagation :
    ∀ cause : String, fmtFromSer (.error cause) = some (.error ()) ∧
      ∀ out : List Char, fmtFromSer (.error cause) ≠ some (.ok out) := by
  intro cause
  refine ⟨rfl, ?_⟩
  intro out h
  simp [fmtFromSer] at h

/-- C6 witness: the error propagation at the concrete cause `boom`. -/
theorem C6_witness :
    fmtFromSer (.error "boom") = some (.error ()) ∧
    ∀ out : List Char, fmtFromSer (.error "boom") ≠ some (.ok out) :=
  C6_error_propagation "boom"

/-- C7: the two strips are evaluated sequentially and independently —
a quote-wrapped string whose content is brace-wrapped passes through
both strips (the content loses its first and last character), while a
string starting with `{` passes only through the brace-strip. -/
theorem C7_strips_sequential :
    (∀ t : List Char, t.head? = some lbrace → t.getLast? = some rbrace →
      (stripQuotes ('"' :: (t ++ ['"']))).bind stripBraces =
        some ((t.drop 1).dropLast)) ∧
    (∀ s : List Char, s.head? = some lbrace →
      (stripQuotes s).bind stripBraces = stripBraces s) := by
  constructor
  · intro t h1 h2
    rw [stripQuotes_quoted, Option.some_bind, stripBraces_of_wrapped h1 h2]
  · intro s h
    rw [stripQuotes_of_head_ne h (by decide), Option.some_bind]

/-- C7 witness: both parts applied at a concrete brace-wrapped
content. -/
theorem C7_witness :
    (stripQuotes ('"' :: ((lbrace :: ("a".toList ++ [rbrace])) ++ ['"']))).bind
        stripBraces = some "a".toList ∧
    (stripQuotes (lbrace :: ("a".toList ++ [rbrace]))).bind stripBraces =
      stripBraces (lbrace :: ("a".toList ++ [rbrace])) := by
  constructor
  · have h := C7_strips_sequential.1 (lbrace :: ("a".toList ++ [rbrace]))
      (by decide) (by decide)
    rw [h]
    decide
  · exact C7_strips_sequential.2 (lbrace :: ("a".toList ++ [rbrace])) (by decide)

/-- C8: the display pipeline is a pure function of the compact
serialized form — values with identical serializations display
identically. -/
theorem C8_deterministic :
    ∀ a b : Json, a.compact = b.compact → display a = display b := by
  intro a b h
  unfold display
  rw [h]

/-- C8 witness: determinism applied to two structurally equal string
values. -/
theorem C8_witness :
    display (Json.str "x".toList) = display (Json.str "x".toList) :=
  C8_deterministic (Json.str "x".toList) (Json.str "x".toList) rfl

/-- C9: the substitution output — and hence every successful display
string — contains no backslash, double-quote, colon or space. -/
theorem C9_no_special_chars :
    (∀ (s : List Char) (c : Char), c ∈ substitute s →
      c ≠ '\\' ∧ c ≠ '"' ∧ c ≠ ':' ∧ c ≠ ' ') ∧
    (∀ (j : Json) (out : List Char) (c : Char), display j = some out →
      c ∈ out → c ≠ '\\' ∧ c ≠ '"' ∧ c ≠ ':' ∧ c ≠ ' ') := by
  constructor
  · intro s c h
    exact substitute_no_special h
  · intro j out c hdisp hc
    unfold display cleanup at hdisp
    rcases Option.bind_eq_some.mp hdisp with ⟨a, _, hmap⟩
    rcases Option.map_eq_some'.mp hmap with ⟨b, _, rfl⟩
    exact substitute_no_special hc

/-- C9 witness: the concrete display string of `Wrap("a b")` contains
no space. -/
theorem C9_witness :
    'a' ≠ '\\' ∧ 'a' ≠ '"' ∧ 'a' ≠ ':' ∧ 'a' ≠ ' ' :=
  C9_no_special_chars.1 "a b".toList 'a' (by decide)

/-- C10: the transform is not injective — `Wrap("a_b")` and
`Wrap("a:b")` have distinct serializations but the same display string,
because colon maps to underscore while underscore passes through. -/
theorem C10_not_injective :
    Json.compact (Json.str "a_b".toList) ≠ Json.compact (Json.str "a:b".toList) ∧
    ProductCode.display ⟨"a_b".toList⟩ = ProductCode.display ⟨"a:b".toList⟩ ∧
    ProductCode.display ⟨"a_b".toList⟩ = some "a_b".toList := by
  refine ⟨by decide, by decide, by decide⟩

end DetDisplay
